import Mathlib

/-!
Verification of the elelem resilient LLM-generation pipeline.

This file gives a shallow embedding, in Lean 4, of the core logic of the
elelem repository (src/helpers.ts, src/elelem.ts, src/types.ts) and proves
or refutes the specified properties of that logic:

* the JSON extractor (extractLastJSON in src/helpers.ts);
* the three-level usage ledger discipline (callOpenAIApi, lines 76-89 of
  src/elelem.ts, and the session orchestrator);
* the retry engine withRetries with its sticky permanent-failure
  short-circuit (lines 132-176 of src/elelem.ts), on top of a model of the
  exponential-backoff library driver;
* the cache-augmented generate attempt body (lines 204-358 of
  src/elelem.ts), parameterized over the external JSON parser and the
  caller-supplied schema validator;
* the cached action wrapper (lines 497-539 of src/elelem.ts).

JavaScript numbers are modelled exactly (Nat for token counts, Rat for
dollar costs); JavaScript strings are Lean Strings, and character-level
algorithms work on their underlying character lists.

The file is organized as the full list of definitions followed by the
theorems about them.
-/

namespace Elelem

/-! ## JSON extractor: src/helpers.ts

The TypeScript source scans the input string from its last character to
its first, keeping a brace counter. The first closing brace seen becomes
lastIndex; every closing brace increments the counter and every opening
brace decrements it; when the counter reaches zero at an opening brace
that index becomes firstIndex and the scan stops. If both indices were
found the inclusive substring between them is returned, otherwise null. -/

/-- One backward scan of the loop of extractLastJSON (src/helpers.ts lines
6-19): the fuel argument counts the characters still to visit, so the
character inspected in the step case is the one at index i; cnt is
bracketsCount and li is lastIndex (none standing for the sentinel -1).
Returns the pair (firstIndex, lastIndex). -/
def scanAux (s : List Char) : Nat → Int → Option Nat → Option Nat × Option Nat
  | 0, _, li => (none, li)
  | i + 1, cnt, li =>
    if s.getD i ' ' = '}' then
      scanAux s i (cnt + 1) (if li.isNone then some i else li)
    else if s.getD i ' ' = '{' then
      if cnt - 1 = 0 then (some i, li)
      else scanAux s i (cnt - 1) li
    else scanAux s i cnt li

/-- extractLastJSON on the character list of the input: run the backward
scan over the whole input and, when both indices were found, return the
inclusive slice between them (src/helpers.ts lines 21-25). -/
def extractLastJSONList (s : List Char) : Option (List Char) :=
  match scanAux s s.length 0 none with
  | (some first, some last) => some ((s.drop first).take (last + 1 - first))
  | _ => none

/-- extractLastJSON (src/helpers.ts): returns the last brace-balanced
region of the input, or none when the scan fails to find one. -/
def extractLastJSON (input : String) : Option String :=
  (extractLastJSONList input.data).map fun cs => String.mk cs

/-! ## Usage ledger: ElelemUsage (src/types.ts line 107) and its mutation
discipline (src/elelem.ts lines 76-89)

An ElelemUsage record holds three token counters and a dollar cost. The
only code that ever mutates a ledger is the body of callOpenAIApi
(src/elelem.ts lines 76-89), which, for each successful provider exchange
carrying a usage block, adds the same four quantities to the
attempt-level, call-level and session-level ledgers. We model that block
as applyProviderUsage, and the nesting of the pipeline as explicit folds:
an attempt is a list of provider-usage increments, a generate call is a
list of attempts run against a fresh zero call ledger (src/elelem.ts
lines 195-200) and a fresh zero attempt ledger per attempt (lines
212-217), and a session is a list of generate calls run against a fresh
zero session ledger (lines 372-377). -/

/-- ElelemUsage (src/types.ts line 107): CompletionUsage plus cost_usd.
Token counts are naturals; the dollar cost is an exact rational. -/
structure Usage where
  completion_tokens : Nat
  prompt_tokens : Nat
  total_tokens : Nat
  cost_usd : Rat
deriving DecidableEq, Repr

/-- The all-zero ledger, as freshly allocated by generate and session. -/
def Usage.zero : Usage := ⟨0, 0, 0, 0⟩

/-- Fieldwise addition of usage records. -/
def Usage.add (a b : Usage) : Usage :=
  ⟨a.completion_tokens + b.completion_tokens,
   a.prompt_tokens + b.prompt_tokens,
   a.total_tokens + b.total_tokens,
   a.cost_usd + b.cost_usd⟩

/-- Sum of a list of usage records. -/
def usageSum (l : List Usage) : Usage := l.foldr Usage.add Usage.zero

/-- The usage side effect of one successful provider exchange
(src/elelem.ts lines 76-89): the same increment is added to the
attempt-level, call-level and session-level ledgers. -/
def applyProviderUsage (inc attempt call session : Usage) :
    Usage × Usage × Usage :=
  (attempt.add inc, call.add inc, session.add inc)

/-- Run the provider-usage increments of one attempt over the three
ledgers. -/
def runAttemptIncs : List Usage → Usage → Usage → Usage →
    Usage × Usage × Usage
  | [], attempt, call, session => (attempt, call, session)
  | inc :: rest, attempt, call, session =>
    let s := applyProviderUsage inc attempt call session
    runAttemptIncs rest s.1 s.2.1 s.2.2

/-- Run the attempts of one generate call: each attempt starts from a
fresh zero attempt ledger (src/elelem.ts lines 212-217); the call and
session ledgers persist across attempts. Returns the per-attempt final
ledgers, the final call ledger and the final session ledger. -/
def runGenerateCall : List (List Usage) → Usage → Usage →
    List Usage × Usage × Usage
  | [], call, session => ([], call, session)
  | attempt :: rest, call, session =>
    let s := runAttemptIncs attempt Usage.zero call session
    let r := runGenerateCall rest s.2.1 s.2.2
    (s.1 :: r.1, r.2.1, r.2.2)

/-- Run the generate calls of one session: each call starts from a fresh
zero call ledger (src/elelem.ts lines 195-200); the session ledger
persists. Returns the per-call final ledgers and the final session
ledger. -/
def runSession : List (List (List Usage)) → Usage → List Usage × Usage
  | [], session => ([], session)
  | call :: rest, session =>
    let s := runGenerateCall call Usage.zero session
    let r := runSession rest s.2.2
    (s.2.1 :: r.1, r.2)

/-! ## Retry engine: withRetries (src/elelem.ts lines 132-176)

withRetries keeps two closure-local variables, attemptCounter and
nonRetryErr, and hands the exponential-backoff library a thunk. On each
scheduled iteration the thunk first checks nonRetryErr: when it is set
the remembered error is re-thrown at once, with no attempt span opened,
no call of the wrapped operation, and no increment of attemptCounter.
Otherwise an attempt span named after attemptCounter is opened, the
operation runs inside it, a thrown error whose message starts with
ELELEM_NO_RETRY is stored into nonRetryErr, and attemptCounter is
incremented in the finally block.

The backoff driver itself (the exponential-backoff npm library) is
external; it is modelled from its documented interface: it re-invokes the
thunk after a delay while attempts remain, up to its numOfAttempts bound,
whose library default is 10 when the caller passes no options or options
without a numOfAttempts field, and it finally re-throws the last error.
Errors are identified with their message strings, and the operation is
modelled as a deterministic outcome per attempt index. Each backoff
iteration is recorded as one RetryEvent, so that a run's event list shows
which iterations ran the operation inside a fresh attempt span and which
ones were short-circuited by the sticky error. -/

/-- The reserved no-retry marker checked at src/elelem.ts line 155. -/
def noRetryMarker : String := "ELELEM_NO_RETRY"

/-- Whether an error message carries the no-retry marker, as the
startsWith check of src/elelem.ts line 155. -/
def hasNoRetryTag (m : String) : Bool := noRetryMarker.data.isPrefixOf m.data

/-- The closure state of one withRetries invocation (src/elelem.ts lines
137-138). -/
structure RetryState where
  attemptCounter : Nat
  nonRetryErr : Option String
deriving DecidableEq, Repr

/-- What one backoff iteration did: ran the operation inside a fresh
attempt span numbered by attemptCounter, or short-circuited on the sticky
error without opening a span or running the operation. -/
inductive RetryEvent where
  | invoked (attempt : Nat)
  | shortCircuit
deriving DecidableEq, Repr

/-- One iteration of the thunk passed to backOff (src/elelem.ts lines
142-166): re-throw the sticky error if set, otherwise run the operation
at the current attemptCounter, remembering a marker-tagged error and
incrementing the counter. -/
def backoffIter {α : Type} (op : Nat → Except String α) (st : RetryState) :
    Except String α × RetryState × RetryEvent :=
  match st.nonRetryErr with
  | some e => (.error e, st, .shortCircuit)
  | none =>
    match op st.attemptCounter with
    | .ok v =>
      (.ok v, { st with attemptCounter := st.attemptCounter + 1 },
       .invoked st.attemptCounter)
    | .error e =>
      (.error e,
       { attemptCounter := st.attemptCounter + 1,
         nonRetryErr := if hasNoRetryTag e then some e else st.nonRetryErr },
       .invoked st.attemptCounter)

/-- The backoff driver, modelled from the exponential-backoff library
interface: run the thunk; on success stop; on failure retry while
iterations remain and finally surface the last error. fuel is the number
of iterations still allowed; the library never runs with a zero bound, so
the fuel-0 case only pads the recursion. -/
def backOffRun {α : Type} (op : Nat → Except String α) :
    Nat → RetryState → Except String α × List RetryEvent
  | 0, _ => (.error "", [])
  | fuel + 1, st =>
    let s := backoffIter op st
    match s.1 with
    | .ok v => (.ok v, [s.2.2])
    | .error e =>
      if fuel = 0 then (.error e, [s.2.2])
      else
        let r := backOffRun op fuel s.2.1
        (r.1, s.2.2 :: r.2)

/-- withRetries (src/elelem.ts lines 132-176): run the backoff driver
over the thunk starting from attemptCounter 0 and no sticky error, with
the given effective attempt bound. -/
def withRetries {α : Type} (op : Nat → Except String α)
    (numOfAttempts : Nat) : Except String α × List RetryEvent :=
  backOffRun op numOfAttempts ⟨0, none⟩

/-! ## Backoff option defaulting at the call sites of withRetries

The exponential-backoff library options object is modelled by its only
field the pipeline ever sets, the attempt bound numOfAttempts, which is
optional inside the object; the library falls back to its own documented
default of 10 when the caller passes no options object or an object
without the field. The pipeline call sites differ: the generate outer
loop (src/elelem.ts line 360) and every nested cache-read/cache-write
loop (lines 237, 306, 511, 532) pass backoffOptions with the JavaScript
or-default pattern substituting a bound of 3, while the action outer loop
(line 538) passes backoffOptions through unchanged. -/

/-- The caller-facing options object of the exponential-backoff library,
restricted to the one field the pipeline sets. -/
structure BackoffOptions where
  numOfAttempts : Option Nat
deriving DecidableEq, Repr

/-- The documented default attempt bound of the exponential-backoff
library, used when no bound reaches the library. -/
def libDefaultNumOfAttempts : Nat := 10

/-- The attempt bound the library driver actually runs with, given what
was passed to backOff. -/
def effectiveNumOfAttempts : Option BackoffOptions → Nat
  | none => libDefaultNumOfAttempts
  | some o => o.numOfAttempts.getD libDefaultNumOfAttempts

/-- The defaulting pattern at src/elelem.ts lines 237, 306, 360, 511 and
532: take the caller's backoffOptions, or an options object with
numOfAttempts 3 when there is none. -/
def orDefaultThree (o : Option BackoffOptions) : BackoffOptions :=
  o.getD ⟨some 3⟩

/-- Effective attempt bound of the generate outer retry loop
(src/elelem.ts line 360). -/
def generateOuterAttempts (o : Option BackoffOptions) : Nat :=
  effectiveNumOfAttempts (some (orDefaultThree o))

/-- Effective attempt bound of the nested cache-read and cache-write
retry loops (src/elelem.ts lines 237, 306, 511, 532). -/
def cacheRetryAttempts (o : Option BackoffOptions) : Nat :=
  effectiveNumOfAttempts (some (orDefaultThree o))

/-- Effective attempt bound of the action outer retry loop
(src/elelem.ts line 538): backoffOptions is passed through unchanged. -/
def actionOuterAttempts (o : Option BackoffOptions) : Nat :=
  effectiveNumOfAttempts o

/-! ## Generate attempt body (src/elelem.ts lines 204-358)

One attempt of the cache-augmented generate protocol, parameterized over
the external JSON parsing builtin of JavaScript, modelled as an
Option-valued function into an abstract parsed-value type J, and the
caller-supplied zod schema validator (safeParse, modelled as an
Option-valued function from J into the typed result T; none models a
failing safeParse). The provider call is modelled by its outcome: an error
message, or a response text together with the usage increment the call
added to the ledgers. The cache read outcome is the cached text or none.

The messages raised by the external parsers are modelled by fixed
strings: they stand for the JavaScript SyntaxError message and the zod
error rendering, and nothing below depends on more than the fact that
they do not themselves start with the reserved marker. -/

/-- Stand-in for the message of the SyntaxError thrown by the JavaScript
JSON.parse builtin on unparseable text. -/
def jsonSyntaxErrMessage : String := "Unexpected token in JSON"

/-- Stand-in for the rendering of the zod validation error interpolated
into the invalid-schema messages at src/elelem.ts lines 289 and 293. -/
def zodErrorDetail : String := "ZodError"

/-- The untagged invalid-schema message of src/elelem.ts line 293. -/
def invalidSchemaMessage : String :=
  "Invalid schema returned from LLM: " ++ zodErrorDetail

/-- The outcome of one generate attempt: the result or error message the
attempt finishes with, the cache-hit flag, whether the provider call ran,
the text written to the cache (if any), and the usage increment the
attempt added to each ledger. -/
structure GenAttemptOutcome (T : Type) where
  result : Except String T
  cacheHit : Bool
  providerInvoked : Bool
  cacheWriteText : Option String
  usageDelta : Usage

/-- The parse-response stage of a generate attempt (src/elelem.ts lines
252-325): extract the last JSON region of the response, parse it, promote
a parse failure to the tagged permanent error exactly when the merged
options carry temperature 0 (lines 271-278), validate against the schema
with the same promotion rule (lines 283-295), and on success write the
extracted text to the cache unless this attempt was a cache hit (lines
297-308). -/
def processResponse {J T : Type} (jsonParse : String → Option J)
    (safeParse : J → Option T) (temp : Option Rat) (cacheHit : Bool)
    (providerInvoked : Bool) (delta : Usage) (response : String) :
    GenAttemptOutcome T :=
  match extractLastJSON response with
  | none =>
    ⟨.error "No JSON available in response", cacheHit, providerInvoked,
     none, delta⟩
  | some ej =>
    match jsonParse ej with
    | none =>
      if temp = some 0 then
        ⟨.error ("ELELEM_NO_RETRY " ++ jsonSyntaxErrMessage), cacheHit,
         providerInvoked, none, delta⟩
      else
        ⟨.error jsonSyntaxErrMessage, cacheHit, providerInvoked, none,
         delta⟩
    | some j =>
      match safeParse j with
      | none =>
        if temp = some 0 then
          ⟨.error ("ELELEM_NO_RETRY " ++ invalidSchemaMessage), cacheHit,
           providerInvoked, none, delta⟩
        else
          ⟨.error invalidSchemaMessage, cacheHit, providerInvoked, none,
           delta⟩
      | some t =>
        ⟨.ok t, cacheHit, providerInvoked,
         if cacheHit then none else some ej, delta⟩

/-- The cache-miss branch of a generate attempt: run the provider call
and, on a usable response, continue with the parse-response stage
(src/elelem.ts lines 242-250). A failed provider call fails the attempt
with no usage added. -/
def missPath {J T : Type} (jsonParse : String → Option J)
    (safeParse : J → Option T) (temp : Option Rat)
    (api : Except String (String × Usage)) : GenAttemptOutcome T :=
  match api with
  | .error m => ⟨.error m, false, true, none, Usage.zero⟩
  | .ok (r, u) => processResponse jsonParse safeParse temp false true u r

/-- One attempt of generate (src/elelem.ts lines 204-358), given the
cache-read outcome and the provider-call outcome. The cache-hit test of
lines 240-241 evaluates JSON.parse on the cached text inside the
hit-flag expression, so an unparseable cached text throws there: the
attempt fails without the provider being called. A cached text that
parses but fails safeParse leaves cacheHit false, and the provider is
called as on a miss. -/
def generateAttempt {J T : Type} (jsonParse : String → Option J)
    (safeParse : J → Option T) (temp : Option Rat)
    (cached : Option String) (api : Except String (String × Usage)) :
    GenAttemptOutcome T :=
  match cached with
  | some c =>
    match jsonParse c with
    | none => ⟨.error jsonSyntaxErrMessage, false, false, none, Usage.zero⟩
    | some j =>
      if (safeParse j).isSome then
        processResponse jsonParse safeParse temp true false Usage.zero c
      else missPath jsonParse safeParse temp api
  | none => missPath jsonParse safeParse temp api

/-- The response a generate attempt proceeds to the parse-response stage
with, together with its cache-hit flag and usage increment; none when the
attempt fails before reaching that stage (unparseable cached text or
failed provider call). -/
def effectiveStep {J T : Type} (jsonParse : String → Option J)
    (safeParse : J → Option T) (cached : Option String)
    (api : Except String (String × Usage)) : Option (String × Bool × Usage) :=
  match cached with
  | some c =>
    match jsonParse c with
    | none => none
    | some j =>
      if (safeParse j).isSome then some (c, true, Usage.zero)
      else match api with
        | .error _ => none
        | .ok (r, u) => some (r, false, u)
  | none =>
    match api with
    | .error _ => none
    | .ok (r, u) => some (r, false, u)

/-- A generate attempt together with the cache state it leaves behind:
the fingerprint is fixed, so the cache is the optional stored text, and
a performed cache write replaces it. -/
def generateCallStep {J T : Type} (jsonParse : String → Option J)
    (safeParse : J → Option T) (temp : Option Rat)
    (api : Except String (String × Usage)) (cache : Option String) :
    GenAttemptOutcome T × Option String :=
  let out := generateAttempt jsonParse safeParse temp cache api
  (out, match out.cacheWriteText with | some w => some w | none => cache)

/-! ## Cached action wrapper (src/elelem.ts lines 497-539)

One attempt of the action wrapper, given the cache-read outcome. The hit
test at line 514 is the JavaScript truthiness of the cached string, so
the empty string counts as a miss. The wrapped operation is modelled by
its deterministic result. -/

/-- The outcome of one action attempt: the returned value, whether the
wrapped operation ran, and the text written to the cache (if any). -/
structure ActionOutcome (T : Type) where
  result : T
  opInvoked : Bool
  cacheWriteText : Option String

/-- One attempt of action (src/elelem.ts lines 497-539): on a truthy
cached string, deserialize and return it without running the operation;
otherwise run the operation and write its serialized result. The
JavaScript truthiness test if (cacheValue) makes both null and the empty
string take the miss branch. -/
def actionAttempt {T : Type} (serializeF : T → String)
    (deserializeF : String → T) (opResult : T) (cached : Option String) :
    ActionOutcome T :=
  match cached with
  | some s =>
    if s = "" then ⟨opResult, true, some (serializeF opResult)⟩
    else ⟨deserializeF s, false, none⟩
  | none => ⟨opResult, true, some (serializeF opResult)⟩

/-- An action attempt together with the cache state it leaves behind for
the fixed actionContext key. -/
def actionCallStep {T : Type} (serializeF : T → String)
    (deserializeF : String → T) (opResult : T) (cache : Option String) :
    ActionOutcome T × Option String :=
  let out := actionAttempt serializeF deserializeF opResult cache
  (out, match out.cacheWriteText with | some w => some w | none => cache)

/-! ## Concrete instances used by witnesses and counterexamples -/

/-- An operation that fails once without the marker and then fails with a
marker-tagged error: exercises the sticky short-circuit. -/
def opNoRetryAt1 : Nat → Except String Nat := fun i =>
  if i = 0 then .error "transient failure"
  else .error "ELELEM_NO_RETRY deterministic parse failure"

/-- An operation that always fails with an untagged transient error. -/
def opAlwaysFail : Nat → Except String Nat := fun _ => .error "transient"

/-- The JSON text of the object with a closing brace inside its string
value (written with escaped braces): parsed by real JSON.parse, yet its
raw brace counts are unbalanced. -/
def braceInStringJson : String := "\x7b\"a\":\"\x7d\"\x7d"

/-- A provider response whose last top-level object is braceInStringJson,
followed by a stray opening brace. -/
def braceInStringResponse : String := braceInStringJson ++ "\x7b"

/-- A well-behaved JSON object text that re-extracts to itself. -/
def plainJson : String := "\x7b\"a\":1\x7d"

/-- Toy parsed-value domain for instances: parsing recognizes exactly
braceInStringJson. -/
def parseOnlyBraceInString : String → Option Unit := fun s =>
  if s = braceInStringJson then some () else none

/-- Toy parser recognizing exactly plainJson. -/
def parseOnlyPlain : String → Option Unit := fun s =>
  if s = plainJson then some () else none

/-- Toy parser recognizing no text at all: every parse fails. -/
def parseNothing : String → Option Unit := fun _ => none

/-- Toy validator accepting every parsed value. -/
def acceptAll : Unit → Option Unit := fun _ => some ()

/-- Toy validator rejecting every parsed value. -/
def rejectAll : Unit → Option Unit := fun _ => none

/-- A nonzero usage increment for instances. -/
def sampleUsage : Usage := ⟨7, 5, 12, 3/100⟩

/-- A provider response carrying plainJson after some prose. -/
def plainResponse : String := "Result: " ++ plainJson

/-- A model response mixing prose, a first JSON blob, a markdown code
fence and a final nested object. -/
def multiBlobInput : String :=
  "Sure! Here is \x7b\"x\":1\x7d and the final answer:\n```json\n\x7b\"y\":\x7b\"z\":2\x7d\x7d\n```"

/-- The last top-level object inside multiBlobInput. -/
def nestedObjText : String := "\x7b\"y\":\x7b\"z\":2\x7d\x7d"

/-- An unbalanced input: a balanced pair of objects followed by a stray
opening brace. -/
def strayBraceInput : String := "\x7b\x7b\x7d\x7d\x7b"

/-- What extractLastJSON returns on strayBraceInput. -/
def strayBraceOutput : String := "\x7b\x7d\x7d"

/-! ## Theorems: usage ledger -/

theorem Usage.zero_add (a : Usage) : Usage.add Usage.zero a = a := by
  cases a; simp [Usage.add, Usage.zero]

theorem Usage.add_zero (a : Usage) : Usage.add a Usage.zero = a := by
  cases a; simp [Usage.add, Usage.zero]

theorem Usage.add_assoc (a b c : Usage) :
    Usage.add (Usage.add a b) c = Usage.add a (Usage.add b c) := by
  cases a; cases b; cases c
  simp [Usage.add]
  refine ⟨?_, ?_, ?_, ?_⟩ <;> ring

theorem runAttemptIncs_eq (incs : List Usage) :
    ∀ attempt call session, runAttemptIncs incs attempt call session =
      (attempt.add (usageSum incs), call.add (usageSum incs),
       session.add (usageSum incs)) := by
  induction incs with
  | nil => intro a c s; simp [runAttemptIncs, usageSum, Usage.add_zero]
  | cons inc rest ih =>
    intro a c s
    simp only [runAttemptIncs, applyProviderUsage, ih, usageSum,
      List.foldr_cons]
    refine congrArg₂ _ ?_ (congrArg₂ _ ?_ ?_) <;>
      rw [Usage.add_assoc]

theorem runGenerateCall_eq (attempts : List (List Usage)) :
    ∀ call session, runGenerateCall attempts call session =
      (attempts.map usageSum,
       call.add (usageSum (attempts.map usageSum)),
       session.add (usageSum (attempts.map usageSum))) := by
  induction attempts with
  | nil => intro c s; simp [runGenerateCall, usageSum, Usage.add_zero]
  | cons attempt rest ih =>
    intro c s
    simp only [runGenerateCall, runAttemptIncs_eq, ih, List.map_cons,
      usageSum, List.foldr_cons, Usage.zero_add]
    refine congrArg₂ _ rfl (congrArg₂ _ ?_ ?_) <;> rw [Usage.add_assoc]

theorem runSession_eq (calls : List (List (List Usage))) :
    ∀ session, runSession calls session =
      (calls.map (fun c => usageSum (c.map usageSum)),
       session.add (usageSum (calls.map (fun c => usageSum (c.map usageSum))))) := by
  induction calls with
  | nil => intro s; simp [runSession, usageSum, Usage.add_zero]
  | cons call rest ih =>
    intro s
    simp only [runSession, runGenerateCall_eq, ih, List.map_cons, usageSum,
      List.foldr_cons, Usage.zero_add]
    exact congrArg₂ _ rfl (Usage.add_assoc _ _ _)

theorem usageSum_fields (l : List Usage) :
    (usageSum l).completion_tokens = (l.map Usage.completion_tokens).sum ∧
    (usageSum l).prompt_tokens = (l.map Usage.prompt_tokens).sum ∧
    (usageSum l).total_tokens = (l.map Usage.total_tokens).sum ∧
    (usageSum l).cost_usd = (l.map Usage.cost_usd).sum := by
  induction l with
  | nil => simp [usageSum, Usage.zero]
  | cons a rest ih =>
    simp only [usageSum, List.foldr_cons, List.map_cons, List.sum_cons] at *
    exact ⟨by rw [Usage.add, ih.1], by rw [Usage.add, ih.2.1],
      by rw [Usage.add, ih.2.2.1], by rw [Usage.add, ih.2.2.2]⟩

/-- C2: for every session and every sequence of generate calls in it (each
call a sequence of attempts, each attempt a sequence of provider-call
usage increments, all applied identically to the attempt-, call- and
session-level ledgers by applyProviderUsage, regardless of whether the
calls completed or failed), each field of the final session-level ledger
equals the sum of the corresponding fields of the per-call ledgers, and
each per-call ledger is the sum of its attempts' increments. -/
theorem C2_session_usage_additivity (calls : List (List (List Usage))) :
    (runSession calls Usage.zero).2 = usageSum (runSession calls Usage.zero).1 ∧
    (runSession calls Usage.zero).1
      = calls.map (fun c => usageSum (c.map usageSum)) ∧
    (runSession calls Usage.zero).2.completion_tokens
      = ((runSession calls Usage.zero).1.map Usage.completion_tokens).sum ∧
    (runSession calls Usage.zero).2.prompt_tokens
      = ((runSession calls Usage.zero).1.map Usage.prompt_tokens).sum ∧
    (runSession calls Usage.zero).2.total_tokens
      = ((runSession calls Usage.zero).1.map Usage.total_tokens).sum ∧
    (runSession calls Usage.zero).2.cost_usd
      = ((runSession calls Usage.zero).1.map Usage.cost_usd).sum := by
  have h := runSession_eq calls Usage.zero
  have hfst : (runSession calls Usage.zero).1
      = calls.map (fun c => usageSum (c.map usageSum)) := by rw [h]
  have hsnd : (runSession calls Usage.zero).2
      = usageSum (runSession calls Usage.zero).1 := by
    rw [h]; exact Usage.zero_add _
  have hf := usageSum_fields (runSession calls Usage.zero).1
  refine ⟨hsnd, hfst, ?_, ?_, ?_, ?_⟩ <;> rw [hsnd]
  · exact hf.1
  · exact hf.2.1
  · exact hf.2.2.1
  · exact hf.2.2.2

/-! ## Theorems: retry engine -/

/-- Once the sticky error is set, every remaining iteration re-raises it
as a short-circuit, never touching the operation or the state. -/
theorem backOffRun_sticky {α : Type} (op : Nat → Except String α)
    (e : String) : ∀ fuel st, 1 ≤ fuel → st.nonRetryErr = some e →
    backOffRun op fuel st = (.error e, List.replicate fuel .shortCircuit) := by
  intro fuel
  induction fuel with
  | zero => intro st h; omega
  | succ n ih =>
    intro st _ hst
    have hit : backoffIter op st = (.error e, st, .shortCircuit) := by
      unfold backoffIter; rw [hst]
    by_cases hn : n = 0
    · subst hn
      simp [backOffRun, hit]
    · have hn1 : 1 ≤ n := Nat.one_le_iff_ne_zero.mpr hn
      simp [backOffRun, hit, hn, ih st hn1 hst]
      exact (List.replicate_succ _ _).symm

theorem invoked_range_shift (c k : Nat) :
    (List.range (k + 1 + 1)).map (fun i => RetryEvent.invoked (c + i))
      = RetryEvent.invoked c
        :: (List.range (k + 1)).map (fun i => RetryEvent.invoked (c + 1 + i)) := by
  rw [List.range_succ_eq_map, List.map_cons, List.map_map]
  refine congrArg₂ _ rfl ?_
  refine List.map_congr_left (fun i _ => ?_)
  simp only [Function.comp_apply]
  exact congrArg _ (by omega)

/-- From a clean state, a run whose operation fails without the marker on
the first k attempts and with a marker-tagged error on attempt k invokes
the operation exactly on the first k+1 iterations and short-circuits on
every remaining one, surfacing the tagged error. -/
theorem backOffRun_noRetry {α : Type} (op : Nat → Except String α)
    (ek : String) (htag : hasNoRetryTag ek = true) :
    ∀ k c fuel, k + 1 ≤ fuel →
    (∀ i, i < k → ∃ m, op (c + i) = .error m ∧ hasNoRetryTag m = false) →
    op (c + k) = .error ek →
    backOffRun op fuel ⟨c, none⟩ =
      (.error ek,
       (List.range (k + 1)).map (fun i => RetryEvent.invoked (c + i))
         ++ List.replicate (fuel - (k + 1)) .shortCircuit) := by
  intro k
  induction k with
  | zero =>
    intro c fuel hfuel _ hk
    rw [Nat.add_zero] at hk
    have hit : backoffIter op ⟨c, none⟩
        = (.error ek, ⟨c + 1, some ek⟩, .invoked c) := by
      simp [backoffIter, hk, htag]
    obtain ⟨m, rfl⟩ : ∃ m, fuel = m + 1 := ⟨fuel - 1, by omega⟩
    by_cases hm : m = 0
    · subst hm; simp [backOffRun, hit, List.range_succ, List.range_zero]
    · have hs := backOffRun_sticky op ek m ⟨c + 1, some ek⟩
        (Nat.one_le_iff_ne_zero.mpr hm) rfl
      simp [backOffRun, hit, hm, hs, List.replicate_succ, List.range_succ, List.range_zero]
  | succ k ih =>
    intro c fuel hfuel herr hk
    obtain ⟨m0, hop0, htag0⟩ : ∃ m0, op c = .error m0 ∧ hasNoRetryTag m0 = false := by
      have h := herr 0 (by omega); rwa [Nat.add_zero] at h
    have hit : backoffIter op ⟨c, none⟩
        = (.error m0, ⟨c + 1, none⟩, .invoked c) := by
      simp [backoffIter, hop0, htag0]
    obtain ⟨m, rfl⟩ : ∃ m, fuel = m + 1 := ⟨fuel - 1, by omega⟩
    have hm : ¬ m = 0 := by omega
    have hrec := ih (c + 1) m (by omega)
      (fun i hi => by
        have h := herr (i + 1) (by omega)
        rwa [show c + (i + 1) = c + 1 + i by omega] at h)
      (by rwa [show c + 1 + k = c + (k + 1) by omega])
    simp only [backOffRun, hit, hm, if_false, ite_false]
    rw [hrec]
    refine congrArg₂ _ rfl ?_
    rw [Nat.succ_sub_succ, invoked_range_shift, List.cons_append]

/-- C3: within a single withRetries invocation, once an attempt raises an
error whose message carries the reserved no-retry marker, every
subsequently scheduled attempt immediately re-raises that same remembered
error without invoking the wrapped operation again and without opening a
new attempt scope (the trailing iterations are all shortCircuit events,
and only the first k+1 iterations are invoked events), while the
configured attempt budget is still consumed before the error is surfaced:
the run performs exactly n backoff iterations and ends with that error. -/
theorem C3_no_retry_short_circuit {α : Type} (op : Nat → Except String α)
    (k n : Nat) (ek : String) (hkn : k + 1 ≤ n)
    (hbefore : ∀ i, i < k → ∃ m, op i = .error m ∧ hasNoRetryTag m = false)
    (hk : op k = .error ek) (htag : hasNoRetryTag ek = true) :
    withRetries op n
      = (.error ek, (List.range (k + 1)).map RetryEvent.invoked
          ++ List.replicate (n - (k + 1)) .shortCircuit)
      ∧ (withRetries op n).2.length = n := by
  have h := backOffRun_noRetry op ek htag k 0 n hkn
    (fun i hi => by simpa [Nat.zero_add] using hbefore i hi)
    (by simpa [Nat.zero_add] using hk)
  have hmap : (List.range (k + 1)).map (fun i => RetryEvent.invoked (0 + i))
      = (List.range (k + 1)).map RetryEvent.invoked :=
    List.map_congr_left fun i _ => by rw [Nat.zero_add]
  have hmain : withRetries op n
      = (.error ek, (List.range (k + 1)).map RetryEvent.invoked
          ++ List.replicate (n - (k + 1)) .shortCircuit) := by
    rw [withRetries, h, hmap]
  refine ⟨hmain, ?_⟩
  rw [hmain]
  simp only [List.length_append, List.length_map, List.length_range,
    List.length_replicate]
  omega

theorem C3_no_retry_short_circuit_witness :
    withRetries opNoRetryAt1 4
      = (.error "ELELEM_NO_RETRY deterministic parse failure",
         [.invoked 0, .invoked 1, .shortCircuit, .shortCircuit])
      ∧ (withRetries opNoRetryAt1 4).2.length = 4 := by
  have h := C3_no_retry_short_circuit opNoRetryAt1 1 4
    "ELELEM_NO_RETRY deterministic parse failure" (by omega)
    (fun i hi => ⟨"transient failure", by
      have hi0 : i = 0 := by omega
      subst hi0
      exact ⟨rfl, by decide⟩⟩)
    rfl (by decide)
  refine ⟨?_, h.2⟩
  rw [h.1]
  rfl

/-- Every backoff run performs at most fuel iterations. -/
theorem backOffRun_length_le {α : Type} (op : Nat → Except String α) :
    ∀ fuel st, (backOffRun op fuel st).2.length ≤ fuel := by
  intro fuel
  induction fuel with
  | zero => intro st; simp [backOffRun]
  | succ n ih =>
    intro st
    rcases hres : (backoffIter op st).1 with e | v
    · by_cases hn : n = 0
      · subst hn; simp [backOffRun, hres]
      · simp only [backOffRun, hres, hn, if_false, ite_false,
          List.length_cons]
        have h := ih (backoffIter op st).2.1
        omega
    · simp [backOffRun, hres]

/-- C9 counterexample: at the action wrapper's outer retry loop the
attempt bound without caller-supplied backoff configuration is the
library default of 10, not 3, and a run with an always-failing operation
performs 10 attempts. -/
theorem C9_counterexample :
    actionOuterAttempts none = 10 ∧ ¬ actionOuterAttempts none = 3 ∧
    (withRetries opAlwaysFail (actionOuterAttempts none)).2
      = (List.range 10).map RetryEvent.invoked := by
  refine ⟨rfl, by decide, ?_⟩
  decide

/-- C9 amended: when no caller-supplied backoff configuration is given,
the generate outer retry loop and the nested cache-read/cache-write
loops run with attempt bound 3, so at most 3 attempts are made there
before the last error surfaces; the action wrapper's outer loop instead
passes the absent configuration through to the backoff library, whose
own default bound of 10 applies. -/
theorem C9_default_attempt_bounds :
    generateOuterAttempts none = 3 ∧ cacheRetryAttempts none = 3 ∧
    actionOuterAttempts none = libDefaultNumOfAttempts ∧
    ∀ op : Nat → Except String Nat,
      (withRetries op (generateOuterAttempts none)).2.length ≤ 3 ∧
      (withRetries op (cacheRetryAttempts none)).2.length ≤ 3 := by
  refine ⟨rfl, rfl, rfl, fun op => ⟨?_, ?_⟩⟩ <;>
    exact backOffRun_length_le op 3 ⟨0, none⟩

/-! ## Theorems: generate attempt body -/

theorem tagged_parse_msg_has_marker :
    hasNoRetryTag ("ELELEM_NO_RETRY " ++ jsonSyntaxErrMessage) = true := by
  decide

theorem tagged_schema_msg_has_marker :
    hasNoRetryTag ("ELELEM_NO_RETRY " ++ invalidSchemaMessage) = true := by
  decide

theorem parse_msg_no_marker :
    hasNoRetryTag jsonSyntaxErrMessage = false := by decide

theorem schema_msg_no_marker :
    hasNoRetryTag invalidSchemaMessage = false := by decide

/-- The parse-response stage returns the cache-hit flag, the
provider-invoked flag and the usage increment it was given. -/
theorem processResponse_flags {J T : Type} (jsonParse : String → Option J)
    (safeParse : J → Option T) (temp : Option Rat) (ch pi : Bool)
    (δ : Usage) (r : String) :
    (processResponse jsonParse safeParse temp ch pi δ r).cacheHit = ch ∧
    (processResponse jsonParse safeParse temp ch pi δ r).providerInvoked = pi ∧
    (processResponse jsonParse safeParse temp ch pi δ r).usageDelta = δ := by
  unfold processResponse
  cases hex : extractLastJSON r with
  | none => exact ⟨rfl, rfl, rfl⟩
  | some ej =>
    cases hj : jsonParse ej with
    | none => by_cases ht : temp = some 0 <;> simp [hj, ht]
    | some j =>
      cases hs : safeParse j with
      | none => by_cases ht : temp = some 0 <;> simp [hj, hs, ht]
      | some t => simp [hj, hs]

/-- The miss branch always marks the provider invoked and the cache-hit
flag false. -/
theorem missPath_flags {J T : Type} (jsonParse : String → Option J)
    (safeParse : J → Option T) (temp : Option Rat)
    (api : Except String (String × Usage)) :
    (missPath jsonParse safeParse temp api).providerInvoked = true ∧
    (missPath jsonParse safeParse temp api).cacheHit = false := by
  unfold missPath
  cases api with
  | error m => exact ⟨rfl, rfl⟩
  | ok p =>
    have h := processResponse_flags jsonParse safeParse temp false true
      p.2 p.1
    exact ⟨h.2.1, h.1⟩

/-- When the effective step is defined, the generate attempt is the
parse-response stage run on that response, hit flag and increment. -/
theorem generateAttempt_of_effectiveStep {J T : Type}
    (jsonParse : String → Option J) (safeParse : J → Option T)
    (temp : Option Rat) (cached : Option String)
    (api : Except String (String × Usage)) (r : String) (hit : Bool)
    (δ : Usage)
    (hstep : effectiveStep jsonParse safeParse cached api = some (r, hit, δ)) :
    generateAttempt jsonParse safeParse temp cached api
      = processResponse jsonParse safeParse temp hit (!hit) δ r := by
  cases cached with
  | none =>
    cases api with
    | error m => simp [effectiveStep] at hstep
    | ok p =>
      obtain ⟨r0, u0⟩ := p
      simp only [effectiveStep, Option.some.injEq, Prod.mk.injEq] at hstep
      obtain ⟨rfl, rfl, rfl⟩ := hstep
      rfl
  | some c =>
    cases hj : jsonParse c with
    | none => simp [effectiveStep, hj] at hstep
    | some j =>
      by_cases hs : (safeParse j).isSome
      · simp only [effectiveStep, hj, hs, if_true, Option.some.injEq,
          Prod.mk.injEq] at hstep
        obtain ⟨rfl, rfl, rfl⟩ := hstep
        simp [generateAttempt, hj, hs]
      · cases api with
        | error m => simp [effectiveStep, hj, hs] at hstep
        | ok p =>
          obtain ⟨r0, u0⟩ := p
          simp only [effectiveStep, hj, hs, if_false, Option.some.injEq,
            Prod.mk.injEq] at hstep
          obtain ⟨rfl, rfl, rfl⟩ := hstep
          simp [generateAttempt, missPath, hj, hs]

/-- C4: whenever a generate attempt reaches the parse-response stage and
the extracted response text fails JSON parsing or fails schema
validation, the attempt raises an error that carries the permanent
no-retry marker exactly when the merged model options contain temperature
0; at any other temperature, or with temperature absent, the raised error
is untagged. -/
theorem C4_parse_failure_tagged_iff_temp_zero {J T : Type}
    (jsonParse : String → Option J) (safeParse : J → Option T)
    (temp : Option Rat) (cached : Option String)
    (api : Except String (String × Usage)) (r ej : String) (hit : Bool)
    (δ : Usage)
    (hstep : effectiveStep jsonParse safeParse cached api = some (r, hit, δ))
    (hex : extractLastJSON r = some ej)
    (hfail : jsonParse ej = none
      ∨ ∃ j, jsonParse ej = some j ∧ safeParse j = none) :
    ∃ m, (generateAttempt jsonParse safeParse temp cached api).result
        = .error m
      ∧ (hasNoRetryTag m = true ↔ temp = some 0) := by
  rw [generateAttempt_of_effectiveStep jsonParse safeParse temp cached api
    r hit δ hstep]
  rcases hfail with hj | ⟨j, hj, hs⟩
  · by_cases ht : temp = some 0
    · refine ⟨"ELELEM_NO_RETRY " ++ jsonSyntaxErrMessage, ?_, ?_⟩
      · simp [processResponse, hex, hj, ht]
      · simp [tagged_parse_msg_has_marker, ht]
    · refine ⟨jsonSyntaxErrMessage, ?_, ?_⟩
      · simp [processResponse, hex, hj, ht]
      · simp [parse_msg_no_marker, ht]
  · by_cases ht : temp = some 0
    · refine ⟨"ELELEM_NO_RETRY " ++ invalidSchemaMessage, ?_, ?_⟩
      · simp [processResponse, hex, hj, hs, ht]
      · simp [tagged_schema_msg_has_marker, ht]
    · refine ⟨invalidSchemaMessage, ?_, ?_⟩
      · simp [processResponse, hex, hj, hs, ht]
      · simp [schema_msg_no_marker, ht]

theorem C4_parse_failure_tagged_iff_temp_zero_witness :
    ∃ m, (generateAttempt parseNothing acceptAll (some 0) none
        (.ok (plainJson, sampleUsage))).result = .error m
      ∧ (hasNoRetryTag m = true ↔ (some 0 : Option Rat) = some 0) :=
  C4_parse_failure_tagged_iff_temp_zero parseNothing acceptAll (some 0)
    none (.ok (plainJson, sampleUsage)) plainJson plainJson false
    sampleUsage rfl (by decide) (Or.inl rfl)

/-- C5 counterexample: a cached text that does not parse as JSON is not
treated as a cache miss: the attempt fails with the JSON parse error and
the provider is never invoked, even though the provider call would have
returned a usable response. -/
theorem C5_counterexample :
    (generateAttempt parseOnlyPlain acceptAll (some 0)
        (some "definitely not json")
        (.ok (plainJson, sampleUsage))).providerInvoked = false ∧
    (generateAttempt parseOnlyPlain acceptAll (some 0)
        (some "definitely not json")
        (.ok (plainJson, sampleUsage))).result
      = .error jsonSyntaxErrMessage :=
  ⟨rfl, rfl⟩

/-- C5 amended: in the cache lookup of a generate attempt, a cached text
that parses as JSON but does not satisfy the schema is treated as a
cache miss (the provider call is invoked and the cache-hit flag stays
false); a cached text that does not parse as JSON instead fails the
attempt with the JSON parse error, without invoking the provider. -/
theorem C5_cache_validation {J T : Type} (jsonParse : String → Option J)
    (safeParse : J → Option T) (temp : Option Rat) (c : String)
    (api : Except String (String × Usage)) :
    (∀ j, jsonParse c = some j → safeParse j = none →
      (generateAttempt jsonParse safeParse temp (some c) api).providerInvoked
          = true ∧
      (generateAttempt jsonParse safeParse temp (some c) api).cacheHit
          = false) ∧
    (jsonParse c = none →
      (generateAttempt jsonParse safeParse temp (some c) api).providerInvoked
          = false ∧
      (generateAttempt jsonParse safeParse temp (some c) api).result
          = .error jsonSyntaxErrMessage) := by
  constructor
  · intro j hj hs
    have hmiss := missPath_flags jsonParse safeParse temp api
    have hred : generateAttempt jsonParse safeParse temp (some c) api
        = missPath jsonParse safeParse temp api := by
      simp [generateAttempt, hj, hs]
    rw [hred]
    exact ⟨hmiss.1, hmiss.2⟩
  · intro hj
    have hred : generateAttempt jsonParse safeParse temp (some c) api
        = ⟨.error jsonSyntaxErrMessage, false, false, none, Usage.zero⟩ := by
      simp [generateAttempt, hj]
    rw [hred]
    exact ⟨rfl, rfl⟩

theorem C5_cache_validation_witness :
    ((generateAttempt parseOnlyPlain rejectAll none (some plainJson)
        (.ok (plainJson, sampleUsage))).providerInvoked = true ∧
     (generateAttempt parseOnlyPlain rejectAll none (some plainJson)
        (.ok (plainJson, sampleUsage))).cacheHit = false) ∧
    ((generateAttempt parseOnlyPlain acceptAll none (some "oops")
        (.ok (plainJson, sampleUsage))).providerInvoked = false ∧
     (generateAttempt parseOnlyPlain acceptAll none (some "oops")
        (.ok (plainJson, sampleUsage))).result
       = .error jsonSyntaxErrMessage) :=
  ⟨(C5_cache_validation parseOnlyPlain rejectAll none plainJson
      (.ok (plainJson, sampleUsage))).1 () rfl rfl,
   (C5_cache_validation parseOnlyPlain acceptAll none "oops"
      (.ok (plainJson, sampleUsage))).2 (by decide)⟩

/-- Whatever the attempt wrote to the cache parses as JSON, satisfies the
schema, and is the extracted text of a successful attempt whose result is
the corresponding validated value. -/
theorem processResponse_cacheWrite_inv {J T : Type}
    (jsonParse : String → Option J) (safeParse : J → Option T)
    (temp : Option Rat) (ch pi : Bool) (δ : Usage) (r w : String)
    (hw : (processResponse jsonParse safeParse temp ch pi δ r).cacheWriteText
        = some w) :
    ∃ j t, jsonParse w = some j ∧ safeParse j = some t ∧
      (processResponse jsonParse safeParse temp ch pi δ r).result = .ok t := by
  unfold processResponse at *
  cases hex : extractLastJSON r with
  | none => simp [hex] at hw
  | some ej =>
    cases hj : jsonParse ej with
    | none => by_cases ht : temp = some 0 <;> simp [hex, hj, ht] at hw
    | some j =>
      cases hs : safeParse j with
      | none => by_cases ht : temp = some 0 <;> simp [hex, hj, hs, ht] at hw
      | some t =>
        cases ch with
        | true => simp [hex, hj, hs] at hw
        | false =>
          simp [hex, hj, hs] at hw
          subst hw
          refine ⟨j, t, hj, hs, ?_⟩
          simp [hj, hs]

/-- Same inversion at the level of a whole attempt. -/
theorem generateAttempt_cacheWrite_inv {J T : Type}
    (jsonParse : String → Option J) (safeParse : J → Option T)
    (temp : Option Rat) (cached : Option String)
    (api : Except String (String × Usage)) (w : String)
    (hw : (generateAttempt jsonParse safeParse temp cached api).cacheWriteText
        = some w) :
    ∃ j t, jsonParse w = some j ∧ safeParse j = some t ∧
      (generateAttempt jsonParse safeParse temp cached api).result
        = .ok t := by
  cases hstep : effectiveStep jsonParse safeParse cached api with
  | none =>
    exfalso
    cases cached with
    | none =>
      cases api with
      | error m => simp [generateAttempt, missPath] at hw
      | ok p => simp [effectiveStep] at hstep
    | some c =>
      cases hj : jsonParse c with
      | none => simp [generateAttempt, hj] at hw
      | some j =>
        by_cases hs : (safeParse j).isSome
        · simp [effectiveStep, hj, hs] at hstep
        · cases api with
          | error m => simp [generateAttempt, missPath, hj, hs] at hw
          | ok p => simp [effectiveStep, hj, hs] at hstep
  | some v =>
    obtain ⟨r, hit, δ⟩ := v
    rw [generateAttempt_of_effectiveStep jsonParse safeParse temp cached api
      r hit δ hstep] at hw ⊢
    exact processResponse_cacheWrite_inv jsonParse safeParse temp hit
      (!hit) δ r w hw

/-- C6 counterexample: a generate call whose provider response ends in an
object holding a closing brace inside a string value, followed by a stray
opening brace, succeeds and writes the extracted object text to the
cache; reissuing the same call with the populated cache takes the hit
path yet fails with the no-JSON error instead of returning a
schema-equivalent result, because the cached text does not re-extract. -/
theorem C6_counterexample :
    (generateCallStep parseOnlyBraceInString acceptAll (some 0)
        (.ok (braceInStringResponse, sampleUsage)) none).1.result
      = .ok () ∧
    (generateCallStep parseOnlyBraceInString acceptAll (some 0)
        (.ok (braceInStringResponse, sampleUsage)) none).2
      = some braceInStringJson ∧
    (generateCallStep parseOnlyBraceInString acceptAll (some 0)
        (.ok (braceInStringResponse, sampleUsage))
        (generateCallStep parseOnlyBraceInString acceptAll (some 0)
          (.ok (braceInStringResponse, sampleUsage)) none).2).1.cacheHit
      = true ∧
    (generateCallStep parseOnlyBraceInString acceptAll (some 0)
        (.ok (braceInStringResponse, sampleUsage))
        (generateCallStep parseOnlyBraceInString acceptAll (some 0)
          (.ok (braceInStringResponse, sampleUsage)) none).2).1.result
      = .error "No JSON available in response" :=
  ⟨rfl, rfl, rfl, rfl⟩

/-- C6 amended: a generate attempt whose cached text parses as JSON and
satisfies the schema skips the provider call, adds nothing to any usage
ledger and writes nothing to the cache; and reissuing a call after a
cache write yields a hit with zero additional usage and the same
validated result, provided the written text re-extracts to itself. -/
theorem C6_cache_hit_no_usage_and_idempotence {J T : Type}
    (jsonParse : String → Option J) (safeParse : J → Option T)
    (temp : Option Rat) (api : Except String (String × Usage)) :
    (∀ c j t, jsonParse c = some j → safeParse j = some t →
      (generateAttempt jsonParse safeParse temp (some c) api).providerInvoked
          = false ∧
      (generateAttempt jsonParse safeParse temp (some c) api).usageDelta
          = Usage.zero ∧
      (generateAttempt jsonParse safeParse temp (some c) api).cacheWriteText
          = none ∧
      (generateAttempt jsonParse safeParse temp (some c) api).cacheHit
          = true) ∧
    (∀ cache0 w (api2 : Except String (String × Usage)),
      (generateAttempt jsonParse safeParse temp cache0 api).cacheWriteText
          = some w →
      extractLastJSON w = some w →
      (generateAttempt jsonParse safeParse temp (some w) api2).result
          = (generateAttempt jsonParse safeParse temp cache0 api).result ∧
      (generateAttempt jsonParse safeParse temp (some w) api2).usageDelta
          = Usage.zero ∧
      (generateAttempt jsonParse safeParse temp (some w) api2).providerInvoked
          = false ∧
      (generateAttempt jsonParse safeParse temp (some w) api2).cacheWriteText
          = none) := by
  have hitCase : ∀ (c : String) (j : J),
      jsonParse c = some j → (safeParse j).isSome →
      generateAttempt jsonParse safeParse temp (some c) api
        = processResponse jsonParse safeParse temp true false Usage.zero c := by
    intro c j hj hs
    simp [generateAttempt, hj, hs]
  constructor
  · intro c j t hj hs
    have hred := hitCase c j hj (by rw [hs]; rfl)
    have hfl := processResponse_flags jsonParse safeParse temp true false
      Usage.zero c
    rw [hred] at *
    refine ⟨hfl.2.1, hfl.2.2, ?_, hfl.1⟩
    unfold processResponse
    cases hex : extractLastJSON c with
    | none => rfl
    | some ej =>
      cases hje : jsonParse ej with
      | none => by_cases ht : temp = some 0 <;> simp [hje, ht]
      | some j2 =>
        cases hse : safeParse j2 with
        | none => by_cases ht : temp = some 0 <;> simp [hje, hse, ht]
        | some t2 => simp [hje, hse]
  · intro cache0 w api2 hw hex
    obtain ⟨j, t, hj, hs, hres⟩ := generateAttempt_cacheWrite_inv jsonParse
      safeParse temp cache0 api w hw
    have hred := hitCase w j hj (by rw [hs]; rfl)
    have hsecond : generateAttempt jsonParse safeParse temp (some w) api2
        = processResponse jsonParse safeParse temp true false Usage.zero w := by
      simp [generateAttempt, hj, hs]
    have hproc : processResponse jsonParse safeParse temp true false
        Usage.zero w
        = ⟨.ok t, true, false, none, Usage.zero⟩ := by
      unfold processResponse
      simp [hex, hj, hs]
    rw [hsecond, hproc, hres]
    exact ⟨rfl, rfl, rfl, rfl⟩

theorem C6_cache_hit_no_usage_and_idempotence_witness :
    ((generateAttempt parseOnlyPlain acceptAll none (some plainJson)
        (.ok (plainResponse, sampleUsage))).providerInvoked = false ∧
     (generateAttempt parseOnlyPlain acceptAll none (some plainJson)
        (.ok (plainResponse, sampleUsage))).usageDelta = Usage.zero ∧
     (generateAttempt parseOnlyPlain acceptAll none (some plainJson)
        (.ok (plainResponse, sampleUsage))).cacheWriteText = none ∧
     (generateAttempt parseOnlyPlain acceptAll none (some plainJson)
        (.ok (plainResponse, sampleUsage))).cacheHit = true) ∧
    ((generateAttempt parseOnlyPlain acceptAll none (some plainJson)
        (.error "provider down")).result
       = (generateAttempt parseOnlyPlain acceptAll none none
           (.ok (plainResponse, sampleUsage))).result ∧
     (generateAttempt parseOnlyPlain acceptAll none (some plainJson)
        (.error "provider down")).usageDelta = Usage.zero ∧
     (generateAttempt parseOnlyPlain acceptAll none (some plainJson)
        (.error "provider down")).providerInvoked = false ∧
     (generateAttempt parseOnlyPlain acceptAll none (some plainJson)
        (.error "provider down")).cacheWriteText = none) :=
  ⟨(C6_cache_hit_no_usage_and_idempotence parseOnlyPlain acceptAll none
      (.ok (plainResponse, sampleUsage))).1 plainJson () () rfl rfl,
   (C6_cache_hit_no_usage_and_idempotence parseOnlyPlain acceptAll none
      (.ok (plainResponse, sampleUsage))).2 none plainJson
      (.error "provider down") rfl (by decide)⟩

/-! ## Theorems: cached action wrapper -/

/-- C8 counterexample: with a serializer producing the empty string, the
first action call executes the operation and stores the empty string;
the second call's cache read returns that stored value, yet the
JavaScript truthiness test treats it as a miss and the wrapped operation
runs again. -/
theorem C8_counterexample :
    (actionAttempt (fun _ : Nat => "") (fun _ => 0) 3 (some "")).opInvoked
      = true ∧
    (actionCallStep (fun _ : Nat => "") (fun _ => 0) 3 none).1.opInvoked
      = true ∧
    (actionCallStep (fun _ : Nat => "") (fun _ => 0) 3 none).2 = some "" ∧
    (actionCallStep (fun _ : Nat => "") (fun _ => 0) 3
        (actionCallStep (fun _ : Nat => "") (fun _ => 0) 3 none).2).1.opInvoked
      = true :=
  ⟨rfl, rfl, rfl, rfl⟩

/-- C8 amended: an action call whose cache read returns a non-empty
stored value returns its deserialization without running the wrapped
operation; hence two calls with an identical actionContext over a
persistent cache run the operation exactly once and agree on the result,
provided the serialized result is non-empty and the serializers
round-trip it. -/
theorem C8_action_dedup {T : Type} (serializeF : T → String)
    (deserializeF : String → T) (opResult : T) :
    (∀ s : String, ¬ s = "" →
      (actionAttempt serializeF deserializeF opResult (some s)).opInvoked
          = false ∧
      (actionAttempt serializeF deserializeF opResult (some s)).result
          = deserializeF s) ∧
    (¬ serializeF opResult = "" →
      deserializeF (serializeF opResult) = opResult →
      (actionCallStep serializeF deserializeF opResult none).1.opInvoked
          = true ∧
      (actionCallStep serializeF deserializeF opResult
          (actionCallStep serializeF deserializeF opResult none).2).1.opInvoked
          = false ∧
      (actionCallStep serializeF deserializeF opResult
          (actionCallStep serializeF deserializeF opResult none).2).1.result
          = (actionCallStep serializeF deserializeF opResult none).1.result) := by
  constructor
  · intro s hs
    constructor <;> simp [actionAttempt, hs]
  · intro hser hrt
    refine ⟨rfl, ?_, ?_⟩ <;>
      simp [actionCallStep, actionAttempt, hser, hrt]

theorem C8_action_dedup_witness :
    ((actionAttempt (fun _ : Nat => "three") (fun _ => 3) 3
        (some "three")).opInvoked = false ∧
     (actionAttempt (fun _ : Nat => "three") (fun _ => 3) 3
        (some "three")).result = 3) ∧
    ((actionCallStep (fun _ : Nat => "three") (fun _ => 3) 3 none).1.opInvoked
        = true ∧
     (actionCallStep (fun _ : Nat => "three") (fun _ => 3) 3
        (actionCallStep (fun _ : Nat => "three") (fun _ => 3) 3
          none).2).1.opInvoked = false ∧
     (actionCallStep (fun _ : Nat => "three") (fun _ => 3) 3
        (actionCallStep (fun _ : Nat => "three") (fun _ => 3) 3
          none).2).1.result
       = (actionCallStep (fun _ : Nat => "three") (fun _ => 3) 3
           none).1.result) :=
  ⟨(C8_action_dedup (fun _ : Nat => "three") (fun _ => 3) 3).1 "three"
      (by decide),
   (C8_action_dedup (fun _ : Nat => "three") (fun _ => 3) 3).2 (by decide)
      rfl⟩

/-! ## Theorems: JSON extractor -/

/-- Splitting the count over a dropped list at an inspected index. -/
theorem count_drop_succ (s : List Char) (i : Nat) (c : Char)
    (h : i < s.length) :
    (s.drop i).count c
      = (if s.getD i ' ' = c then 1 else 0) + (s.drop (i + 1)).count c := by
  rw [List.getD_eq_getElem s ' ' h, List.drop_eq_getElem_cons h,
    List.count_cons]
  by_cases hc : s[i] = c <;> simp [hc]
  omega

/-- With no closing brace among the scanned characters and a nonpositive
counter, the scan finds no first index and leaves lastIndex unchanged. -/
theorem scanAux_no_rbrace (s : List Char)
    (hnc : ∀ i, i < s.length → ¬ s.getD i ' ' = '}') :
    ∀ fuel, fuel ≤ s.length → ∀ cnt : Int, cnt ≤ 0 → ∀ li,
    scanAux s fuel cnt li = (none, li) := by
  intro fuel
  induction fuel with
  | zero => intro _ cnt _ li; rfl
  | succ i ih =>
    intro hle cnt hcnt li
    have hc := hnc i (by omega)
    unfold scanAux
    rw [if_neg hc]
    by_cases hb : s.getD i ' ' = '{'
    · rw [if_pos hb, if_neg (by omega : ¬ (cnt - 1 = 0))]
      exact ih (by omega) (cnt - 1) (by omega) li
    · rw [if_neg hb]
      exact ih (by omega) cnt hcnt li

/-- With no opening brace among the scanned characters, the scan finds no
first index. -/
theorem scanAux_no_lbrace (s : List Char)
    (hnc : ∀ i, i < s.length → ¬ s.getD i ' ' = '{') :
    ∀ fuel, fuel ≤ s.length → ∀ (cnt : Int) (li : Option Nat),
    (scanAux s fuel cnt li).1 = none := by
  intro fuel
  induction fuel with
  | zero => intro _ cnt li; rfl
  | succ i ih =>
    intro hle cnt li
    have hb := hnc i (by omega)
    unfold scanAux
    by_cases hc : s.getD i ' ' = '}'
    · rw [if_pos hc]
      exact ih (by omega) (cnt + 1) _
    · rw [if_neg hc, if_neg hb]
      exact ih (by omega) cnt li

/-- Invariant of the backward scan: starting from a counter equal to the
closing-minus-opening brace count of the already-scanned suffix, with a
lastIndex that is the position of the last closing brace of the input
when set (and a still-brace-free scanned suffix when not), a successful
scan returns a first index holding an opening brace, at or before the
last index, which holds the last closing brace of the input; and on the
inclusive slice between them the number of closing braces exceeds the
number of opening braces by exactly the number of opening braces in the
suffix after the last index. -/
theorem scanAux_spec (s : List Char) :
    ∀ fuel, fuel ≤ s.length →
    ∀ (cnt : Int) (li : Option Nat),
    cnt = ((s.drop fuel).count '}' : Int) - ((s.drop fuel).count '{' : Int) →
    (∀ x, li = some x → x < s.length ∧ s.getD x ' ' = '}'
      ∧ (s.drop (x + 1)).count '}' = 0 ∧ fuel ≤ x + 1) →
    (li = none → (s.drop fuel).count '}' = 0) →
    ∀ f l, scanAux s fuel cnt li = (some f, some l) →
      f < s.length ∧ s.getD f ' ' = '{' ∧ l < s.length ∧ s.getD l ' ' = '}'
      ∧ f ≤ l ∧ (s.drop (l + 1)).count '}' = 0
      ∧ s.drop f = (s.drop f).take (l + 1 - f) ++ s.drop (l + 1)
      ∧ ((s.drop f).take (l + 1 - f)).count '}'
          = ((s.drop f).take (l + 1 - f)).count '{'
            + (s.drop (l + 1)).count '{' := by
  intro fuel
  induction fuel with
  | zero =>
    intro _ cnt li _ _ _ f l h
    simp [scanAux] at h
  | succ i ih =>
    intro hle cnt li hcnt hli hnone f l h
    have hi : i < s.length := by omega
    have hcR := count_drop_succ s i '}' hi
    have hcL := count_drop_succ s i '{' hi
    unfold scanAux at h
    by_cases hc : s.getD i ' ' = '}'
    · rw [if_pos hc] at h
      refine ih (by omega) (cnt + 1) (if li.isNone then some i else li)
        ?_ ?_ ?_ f l h
      · rw [hcR, hcL, if_pos hc, if_neg (by rw [hc]; decide)]
        push_cast
        omega
      · intro x hx
        cases li with
        | none =>
          simp only [Option.isNone_none, if_true, Option.some.injEq] at hx
          have hx2 : x = i := by omega
          rw [hx2]
          exact ⟨hi, hc, hnone rfl, by omega⟩
        | some y =>
          simp only [Option.isNone_some, if_false, Option.some.injEq,
            Bool.false_eq_true, ite_false] at hx
          obtain ⟨h1, h2, h3, h4⟩ := hli y rfl
          have hx2 : x = y := by omega
          rw [hx2]
          exact ⟨h1, h2, h3, by omega⟩
      · intro hx
        cases li with
        | none => simp at hx
        | some y => simp at hx
    · by_cases hb : s.getD i ' ' = '{'
      · rw [if_neg hc, if_pos hb] at h
        by_cases hz : cnt - 1 = 0
        · rw [if_pos hz] at h
          injection h with h1 h2
          injection h1 with h1e
          subst h1e
          obtain ⟨hlen, hchar, hcount0, hfl⟩ := hli l h2
          have hfle : i ≤ l := by omega
          have hdec : s.drop i
              = (s.drop i).take (l + 1 - i) ++ s.drop (l + 1) := by
            have hdd : (s.drop i).drop (l + 1 - i) = s.drop (l + 1) := by
              rw [List.drop_drop]
              congr 1
              omega
            rw [← hdd]
            exact (List.take_append_drop _ _).symm
          have hRdec : (s.drop i).count '}'
              = ((s.drop i).take (l + 1 - i)).count '}'
                + (s.drop (l + 1)).count '}' := by
            conv_lhs => rw [hdec]
            exact List.count_append _ _ _
          have hLdec : (s.drop i).count '{'
              = ((s.drop i).take (l + 1 - i)).count '{'
                + (s.drop (l + 1)).count '{' := by
            conv_lhs => rw [hdec]
            exact List.count_append _ _ _
          refine ⟨hi, hb, hlen, hchar, hfle, hcount0, hdec, ?_⟩
          rw [if_neg hc] at hcR
          rw [if_pos hb] at hcL
          rw [hcnt] at hz
          omega
        · rw [if_neg hz] at h
          refine ih (by omega) (cnt - 1) li ?_ ?_ ?_ f l h
          · rw [hcR, hcL, if_neg (by rw [hb]; decide), if_pos hb]
            push_cast
            omega
          · intro x hx
            obtain ⟨h1, h2, h3, h4⟩ := hli x hx
            exact ⟨h1, h2, h3, by omega⟩
          · intro hx
            have h0 := hnone hx
            rw [hcR, if_neg hc]
            omega
      · rw [if_neg hc, if_neg hb] at h
        refine ih (by omega) cnt li ?_ ?_ ?_ f l h
        · rw [hcR, hcL, if_neg hc, if_neg hb]
          push_cast at hcnt ⊢
          omega
        · intro x hx
          obtain ⟨h1, h2, h3, h4⟩ := hli x hx
          exact ⟨h1, h2, h3, by omega⟩
        · intro hx
          have h0 := hnone hx
          rw [hcR, if_neg hc]
          omega

/-- What a successful extraction returns: the inclusive slice between a
found opening brace and the last closing brace of the input, with the
count relation between its braces and the suffix after it. -/
theorem extractLastJSONList_spec (s out : List Char)
    (h : extractLastJSONList s = some out) :
    ∃ f l, f ≤ l ∧ l < s.length
      ∧ out = (s.drop f).take (l + 1 - f)
      ∧ s.getD f ' ' = '{' ∧ s.getD l ' ' = '}'
      ∧ s.drop f = out ++ s.drop (l + 1)
      ∧ (s.drop (l + 1)).count '}' = 0
      ∧ out.count '}' = out.count '{' + (s.drop (l + 1)).count '{'
      ∧ f < s.length := by
  unfold extractLastJSONList at h
  rcases hsc : scanAux s s.length 0 none with ⟨fo, lo⟩
  rw [hsc] at h
  cases fo with
  | none => cases lo <;> simp at h
  | some f =>
    cases lo with
    | none => simp at h
    | some l =>
      simp only [Option.some.injEq] at h
      obtain ⟨hf, hchf, hl, hchl, hfl, hc0, hdec, hcnt⟩ :=
        scanAux_spec s s.length le_rfl 0 none
          (by simp [List.drop_length]) (by simp) (by simp [List.drop_length])
          f l hsc
      subst h
      exact ⟨f, l, hfl, hl, rfl, hchf, hchl, hdec.symm ▸ hdec, hc0, hcnt, hf⟩

/-- C10 amended: whenever extractLastJSON returns a string, that string is
a contiguous substring of the input whose first character is an opening
brace and whose last character is a closing brace, the part of the input
after it contains no closing brace, and the number of closing braces
inside it exceeds the number of opening braces by exactly the number of
opening braces in the input after it (so the two counts are equal exactly
when no opening brace follows the returned substring). -/
theorem C10_extract_substring_shape (input out : String)
    (h : extractLastJSON input = some out) :
    ∃ pre post : List Char,
      input.data = pre ++ out.data ++ post
      ∧ out.data.head? = some '{'
      ∧ out.data.getLast? = some '}'
      ∧ post.count '}' = 0
      ∧ out.data.count '}' = out.data.count '{' + post.count '{' := by
  unfold extractLastJSON at h
  cases hel : extractLastJSONList input.data with
  | none => rw [hel] at h; simp at h
  | some l0 =>
    rw [hel] at h
    have h2 : String.mk l0 = out := by simpa using h
    subst h2
    obtain ⟨f, l, hfl, hl, hout, hchf, hchl, hdec, hc0, hcnt, hf⟩ :=
      extractLastJSONList_spec input.data l0 hel
    refine ⟨input.data.take f, input.data.drop (l + 1), ?_, ?_, ?_, hc0, hcnt⟩
    · conv_lhs => rw [← List.take_append_drop f input.data]
      rw [hdec]
      simp [List.append_assoc]
    · show l0.head? = some '{'
      have hl1f : l + 1 - f = (l - f) + 1 := by omega
      rw [hout, hl1f, List.drop_eq_getElem_cons hf, List.take_succ_cons,
        List.head?_cons]
      rw [← List.getD_eq_getElem input.data ' ' hf, hchf]
    · show l0.getLast? = some '}'
      rw [List.getLast?_eq_getElem?]
      have hlen0 : l0.length = l + 1 - f := by
        rw [hout, List.length_take, List.length_drop]
        omega
      rw [hlen0]
      have hidx : l + 1 - f - 1 = l - f := by omega
      rw [hidx, hout, List.getElem?_take, if_pos (by omega : l - f < l + 1 - f),
        List.getElem?_drop]
      have hfl2 : f + (l - f) = l := by omega
      rw [hfl2, List.getElem?_eq_getElem hl]
      rw [← List.getD_eq_getElem input.data ' ' hl, hchl]

theorem C10_extract_substring_shape_witness :
    ∃ pre post : List Char,
      strayBraceInput.data = pre ++ strayBraceOutput.data ++ post
      ∧ strayBraceOutput.data.head? = some '{'
      ∧ strayBraceOutput.data.getLast? = some '}'
      ∧ post.count '}' = 0
      ∧ strayBraceOutput.data.count '}'
          = strayBraceOutput.data.count '{' + post.count '{' :=
  C10_extract_substring_shape strayBraceInput strayBraceOutput (by decide)

/-- C10 counterexample: on the unbalanced input with a stray opening
brace after the last closing brace, extractLastJSON returns a substring
whose opening- and closing-brace counts differ. -/
theorem C10_counterexample :
    extractLastJSON strayBraceInput = some strayBraceOutput
    ∧ ¬ strayBraceOutput.data.count '{' = strayBraceOutput.data.count '}' := by
  decide

/-- C1 counterexample: the input with a stray opening brace after two
balanced objects has unbalanced braces, yet extractLastJSON returns a
substring (itself not balanced) instead of absent. -/
theorem C1_counterexample :
    ¬ strayBraceInput.data.count '{' = strayBraceInput.data.count '}'
    ∧ ¬ extractLastJSON strayBraceInput = none
    ∧ extractLastJSON strayBraceInput = some strayBraceOutput := by
  decide

/-- C1 amended: extractLastJSON returns the slice from the point where
the backward brace-depth scan returns to zero through the last closing
brace of the input: on the two-object example it returns the last
complete object; an input containing no closing brace, or no opening
brace, yields absent; but an input with unbalanced braces does not always
yield absent. -/
theorem C1_extract_examples_and_absence :
    extractLastJSON "\x7b\"a\":1\x7d\x7b\"b\":2\x7d" = some "\x7b\"b\":2\x7d"
    ∧ (∀ input : String, '}' ∉ input.data → extractLastJSON input = none)
    ∧ (∀ input : String, '{' ∉ input.data → extractLastJSON input = none) := by
  refine ⟨by decide, ?_, ?_⟩
  · intro input hmem
    have hnc : ∀ i, i < input.data.length →
        ¬ input.data.getD i ' ' = '}' := by
      intro i hi hceq
      rw [List.getD_eq_getElem input.data ' ' hi] at hceq
      exact hmem (hceq ▸ List.getElem_mem hi)
    have hs := scanAux_no_rbrace input.data hnc input.data.length le_rfl 0
      le_rfl none
    unfold extractLastJSON extractLastJSONList
    rw [hs]
    rfl
  · intro input hmem
    have hnc : ∀ i, i < input.data.length →
        ¬ input.data.getD i ' ' = '{' := by
      intro i hi hceq
      rw [List.getD_eq_getElem input.data ' ' hi] at hceq
      exact hmem (hceq ▸ List.getElem_mem hi)
    have hs := scanAux_no_lbrace input.data hnc input.data.length le_rfl 0 none
    unfold extractLastJSON extractLastJSONList
    rcases hsc : scanAux input.data input.data.length 0 none with ⟨fo, lo⟩
    rw [hsc] at hs
    simp only at hs
    subst hs
    cases lo <;> rfl

theorem C1_extract_examples_and_absence_witness :
    extractLastJSON "no braces here" = none
    ∧ extractLastJSON "\x7d closing only" = none :=
  ⟨C1_extract_examples_and_absence.2.1 "no braces here" (by decide),
   C1_extract_examples_and_absence.2.2 "\x7d closing only" (by decide)⟩

/-- The backward scan of an appended list mirrors the scan of its second
part while that scan finds its first index, all positions shifting by the
length of the first part. -/
theorem scanAux_append (a b : List Char) :
    ∀ fuel, fuel ≤ b.length → ∀ (cnt : Int) (li : Option Nat) (f : Nat)
      (lres : Option Nat),
    scanAux b fuel cnt li = (some f, lres) →
    scanAux (a ++ b) (a.length + fuel) cnt (li.map (a.length + ·))
      = (some (a.length + f), lres.map (a.length + ·)) := by
  intro fuel
  induction fuel with
  | zero => intro _ cnt li f lres h; simp [scanAux] at h
  | succ i ih =>
    intro hle cnt li f lres h
    have hib : i < b.length := by omega
    have hchar : (a ++ b).getD (a.length + i) ' ' = b.getD i ' ' := by
      have hq : (a ++ b)[a.length + i]? = b[i]? := by
        rw [List.getElem?_append_right (by omega : a.length ≤ a.length + i)]
        congr 1
        omega
      rw [List.getD_eq_getElem (a ++ b) ' '
          (by simp [List.length_append]; omega),
        List.getD_eq_getElem b ' ' hib]
      rw [List.getElem?_eq_getElem
          (show a.length + i < (a ++ b).length by
            simp [List.length_append]; omega),
        List.getElem?_eq_getElem hib] at hq
      exact Option.some.inj hq
    have hfuel : a.length + (i + 1) = (a.length + i) + 1 := by omega
    rw [hfuel]
    unfold scanAux at h ⊢
    rw [hchar]
    by_cases hc : b.getD i ' ' = '}'
    · rw [if_pos hc] at h ⊢
      have hupd : ((if li.isNone then some i else li).map (a.length + ·))
          = (if (li.map (a.length + ·)).isNone then some (a.length + i)
             else li.map (a.length + ·)) := by
        cases li <;> simp
      rw [← hupd]
      exact ih (by omega) (cnt + 1) (if li.isNone then some i else li) f
        lres h
    · by_cases hb2 : b.getD i ' ' = '{'
      · rw [if_neg hc, if_pos hb2] at h ⊢
        by_cases hz : cnt - 1 = 0
        · rw [if_pos hz] at h ⊢
          injection h with h1 h2
          injection h1 with h1e
          subst h1e
          subst h2
          rfl
        · rw [if_neg hz] at h ⊢
          exact ih (by omega) (cnt - 1) li f lres h
      · rw [if_neg hc, if_neg hb2] at h ⊢
        exact ih (by omega) cnt li f lres h

/-- Prepending any text does not change a successful extraction. -/
theorem extractLastJSONList_append (a b : List Char)
    (h : (extractLastJSONList b).isSome) :
    extractLastJSONList (a ++ b) = extractLastJSONList b := by
  unfold extractLastJSONList at *
  rcases hsc : scanAux b b.length 0 none with ⟨fo, lo⟩
  rw [hsc] at h
  cases fo with
  | none => cases lo <;> simp at h
  | some f =>
    cases lo with
    | none => simp at h
    | some l =>
      have happ := scanAux_append a b b.length le_rfl 0 none f (some l) hsc
      simp only [Option.map_none', Option.map_some'] at happ
      rw [List.length_append, happ]
      have hdrop : (a ++ b).drop (a.length + f) = b.drop f := by
        simp [List.drop_append]
      have hidx : a.length + l + 1 - (a.length + f) = l + 1 - f := by omega
      simp [hdrop, hidx]

/-- C7 amended: the extractor depends only on the suffix of the input it
needs: once a trailing segment extracts successfully (prose, earlier
blobs or fences before it being irrelevant), any text may be prepended
without changing the result, and on a response with prose, a markdown
fence, an earlier blob and a final nested object, the whole final object
is returned. Braces inside string values are counted like any others, so
objects with brace-unbalanced string values are not handled. -/
theorem C7_last_object_isolation :
    (∀ a b : List Char, (extractLastJSONList b).isSome →
      extractLastJSONList (a ++ b) = extractLastJSONList b)
    ∧ extractLastJSON multiBlobInput = some nestedObjText :=
  ⟨extractLastJSONList_append, by decide⟩

theorem C7_last_object_isolation_witness :
    extractLastJSONList ("Answer: ".data ++ plainJson.data)
      = extractLastJSONList plainJson.data :=
  C7_last_object_isolation.1 "Answer: ".data plainJson.data (by decide)

/-- C7 counterexample: for the input that is exactly one object whose
string value holds a closing brace, the claim promises the full object
back; the extractor returns absent, because the brace inside the string
value unbalances the raw brace count. -/
theorem C7_counterexample :
    extractLastJSON braceInStringJson = none := by decide

end Elelem
